import Mathlib

/-!
Shallow embedding of the Neutron `DbQuotaDriver` (neutron/db/quota/driver.py).

The driver's persistent state (quota override rows and reservation rows,
normally living behind a SQLAlchemy session) is embedded as an explicit
`Store` value threaded through every operation.  Python dictionaries are
embedded as association lists with Python's assignment semantics
(`dictSet`: update in place when the key exists, append otherwise).
The store-level helpers of `neutron.db.quota.api` (create_reservation,
remove_expired_reservations, get_reservations_for_resources) are not part
of the source file and are modelled from the spec's reservation-store
contract.
-/

/-- A per-tenant quota override row (`quota_models.Quota`). -/
structure QuotaRow where
  tenant_id : String
  resource : String
  limit : Int
deriving DecidableEq, Repr

/-- A reservation row: id, tenant, resource→delta mapping, and whether the
row is past its expiry timestamp at the moment of observation (expiry is
embedded as this boolean observation rather than wall-clock time). -/
structure Reservation where
  rid : Nat
  tenant_id : String
  deltas : List (String × Int)
  expired : Bool
deriving DecidableEq, Repr

/-- The transactional store's contents: quota override rows, reservation
rows, and the next fresh reservation id. -/
structure Store where
  quotas : List QuotaRow
  reservations : List Reservation
  nextId : Nat
deriving DecidableEq, Repr

/-- A registered resource kind: default limit and its usage-counting
capability (`count(context, plugin, tenant_id, resync_usage=False)`;
the context/session is embedded as the store, the plugin is dropped). -/
structure Resource where
  default : Int
  count : Store → String → Int

/-- Python dict lookup `d[k]` (as an Option). -/
def dictGet (d : List (String × Int)) (k : String) : Option Int :=
  (d.find? (fun p => p.1 == k)).map Prod.snd

/-- Python `d.get(k, dflt)`. -/
def dictGetD (d : List (String × Int)) (k : String) (dflt : Int) : Int :=
  (dictGet d k).getD dflt

/-- Python dict assignment `d[k] = v`: update in place when the key is
present, append otherwise. -/
def dictSet (d : List (String × Int)) (k : String) (v : Int) : List (String × Int) :=
  if d.any (fun p => p.1 == k) then
    d.map (fun p => if p.1 == k then (k, v) else p)
  else
    d ++ [(k, v)]

/-- Lookup of a registered resource, `resources[r]` (total with a junk
default; every theorem that relies on it assumes the key is registered). -/
def resourceGetD (resources : List (String × Resource)) (k : String) : Resource :=
  ((resources.find? (fun p => p.1 == k)).map Prod.snd).getD ⟨0, fun _ _ => 0⟩

/-- The overlay loop of `get_tenant_quotas`: starting from the defaults,
assign each override row of the tenant into the dict. -/
def overlay (init : List (String × Int)) (rows : List QuotaRow) : List (String × Int) :=
  rows.foldl (fun acc row => dictSet acc row.resource row.limit) init

/-- `DbQuotaDriver.get_tenant_quotas`: defaults for every registered
resource, updated with the tenant's override rows. -/
def get_tenant_quotas (s : Store) (resources : List (String × Resource))
    (tenant_id : String) : List (String × Int) :=
  overlay (resources.map (fun kr => (kr.1, kr.2.default)))
    (s.quotas.filter (fun row => row.tenant_id == tenant_id))

/-- Result of `delete_tenant_quota`. -/
inductive DeleteQuotaResult where
  | ok (s : Store)
  | tenantQuotaNotFound (tenant_id : String)
deriving DecidableEq, Repr

/-- `DbQuotaDriver.delete_tenant_quota`: delete all override rows of the
tenant; raise TenantQuotaNotFound when the delete removed no row. -/
def delete_tenant_quota (s : Store) (tenant_id : String) : DeleteQuotaResult :=
  let deleted := (s.quotas.filter (fun row => row.tenant_id == tenant_id)).length
  if deleted = 0 then
    .tenantQuotaNotFound tenant_id
  else
    .ok { s with quotas := s.quotas.filter (fun row => !(row.tenant_id == tenant_id)) }

/-- The row-update helper of `update_quota_limit`: the query's `.first()`
row (the first matching row) gets its limit overwritten. -/
def replaceFirst : List QuotaRow → String → String → Int → List QuotaRow
  | [], _, _, _ => []
  | row :: rest, t, r, l =>
    if row.tenant_id == t && row.resource == r then
      { row with limit := l } :: rest
    else
      row :: replaceFirst rest t r l

/-- `DbQuotaDriver.update_quota_limit`: upsert of one override row. -/
def update_quota_limit (s : Store) (tenant_id resource : String) (limit : Int) : Store :=
  if s.quotas.any (fun row => row.tenant_id == tenant_id && row.resource == resource) then
    { s with quotas := replaceFirst s.quotas tenant_id resource limit }
  else
    { s with quotas := s.quotas ++ [⟨tenant_id, resource, limit⟩] }

/-- `DbQuotaDriver._get_quotas`: retrieves the tenant's quotas (a fresh
dict holding the same pairs). -/
def _get_quotas (s : Store) (tenant_id : String)
    (resources : List (String × Resource)) : List (String × Int) :=
  (get_tenant_quotas s resources tenant_id).map (fun kv => (kv.1, kv.2))

/-- Modelled from the spec: the reservation store's aggregate query
(`quota_api.get_reservations_for_resources` with `expired=True`), summing
the deltas of the tenant's expired reservations for one resource kind. -/
def expiredSum (s : Store) (tenant_id r : String) : Int :=
  ((s.reservations.filter (fun v => v.tenant_id == tenant_id && v.expired)).map
    (fun v => dictGetD v.deltas r 0)).sum

/-- Modelled from the spec: per requested resource kind, the summed deltas
of the tenant's expired reservations. -/
def get_reservations_for_resources (s : Store) (tenant_id : String)
    (requested : List String) : List (String × Int) :=
  requested.map (fun r => (r, expiredSum s tenant_id r))

/-- Modelled from the spec: `quota_api.remove_expired_reservations`
deletes the tenant's expired reservation rows (reclamation). -/
def remove_expired_reservations (s : Store) (tenant_id : String) : Store :=
  { s with reservations :=
      s.reservations.filter (fun v => !(v.tenant_id == tenant_id && v.expired)) }

/-- Modelled from the spec: `quota_api.create_reservation` inserts one new
pending reservation row for the tenant and returns its fresh id. -/
def create_reservation (s : Store) (tenant_id : String)
    (deltas : List (String × Int)) : Nat × Store :=
  (s.nextId,
   { s with
      reservations := s.reservations ++ [⟨s.nextId, tenant_id, deltas, false⟩],
      nextId := s.nextId + 1 })

/-- The set of resource kinds with unlimited (negative) effective limit. -/
def unlimited_resources (limits : List (String × Int)) : List String :=
  (limits.filter (fun p => p.2 < 0)).map Prod.fst

/-- `deltas.keys()` restricted to non-unlimited kinds
(`set(requested_resources) - unlimited_resources`, determinized in the
deltas key order). -/
def requested_resources (deltas : List (String × Int))
    (limits : List (String × Int)) : List String :=
  (deltas.map Prod.fst).filter (fun r => !((unlimited_resources limits).contains r))

/-- The usage-count pass: invoke each remaining resource kind's counting
capability (`resync_usage=False`). -/
def current_usages (s : Store) (resources : List (String × Resource))
    (tenant_id : String) (requested : List String) : List (String × Int) :=
  requested.map (fun r => (r, (resourceGetD resources r).count s tenant_id))

/-- `res_headroom = current_limits[resource] - (usage - expired)`. -/
def res_headroom (limits usages expired : List (String × Int)) (r : String) : Int :=
  dictGetD limits r 0 - (dictGetD usages r 0 - dictGetD expired r 0)

/-- One iteration of the verification loop of `make_reservation`: append
the resource kind to `resources_over_limit` when headroom is below the
requested delta, and reclaim the tenant's expired reservations when a
nonzero expired delta was seen. -/
def reservationCheckStep (limits usages expired deltas : List (String × Int))
    (tenant_id : String) (acc : List String × Store) (r : String) :
    List String × Store :=
  let expired_reservations := dictGetD expired r 0
  let total_usage := dictGetD usages r 0 - expired_reservations
  let headroom := dictGetD limits r 0 - total_usage
  let overs := if headroom < dictGetD deltas r 0 then acc.1 ++ [r] else acc.1
  let s := if expired_reservations ≠ 0 then
    remove_expired_reservations acc.2 tenant_id
  else
    acc.2
  (overs, s)

/-- Outcome of `make_reservation`. -/
inductive MakeResResult where
  | ok (reservation_id : Nat)
  | overQuota (overs : List String)
deriving DecidableEq, Repr

/-- `DbQuotaDriver.make_reservation`: returns the outcome, the store after
the call, and the list of resource kinds whose counting capability was
invoked. -/
def make_reservation (s : Store) (tenant_id : String)
    (resources : List (String × Resource)) (deltas : List (String × Int)) :
    MakeResResult × Store × List String :=
  let current_limits := get_tenant_quotas s resources tenant_id
  let requested := requested_resources deltas current_limits
  let usages := current_usages s resources tenant_id requested
  let expired_deltas := get_reservations_for_resources s tenant_id requested
  let checked := requested.foldl
    (reservationCheckStep current_limits usages expired_deltas deltas tenant_id)
    ([], s)
  if checked.1.isEmpty then
    let created := create_reservation checked.2 tenant_id deltas
    (.ok created.1, created.2, requested)
  else
    (.overQuota (checked.1.insertionSort (fun a b => a ≤ b)), checked.2, requested)

/-- Outcome of `limit_check`. -/
inductive LimitCheckResult where
  | ok
  | invalidQuotaValue (unders : List String)
  | overQuota (overs : List String)
deriving DecidableEq, Repr

/-- `DbQuotaDriver.limit_check`: reject negative proposed values first
(InvalidQuotaValue, sorted keys), then values exceeding a non-negative
effective limit (OverQuota, sorted keys); otherwise succeed.  The function
reads the store and returns only a result: it performs no mutation. -/
def limit_check (s : Store) (tenant_id : String)
    (resources : List (String × Resource)) (values : List (String × Int)) :
    LimitCheckResult :=
  let unders := (values.filter (fun p => p.2 < 0)).map Prod.fst
  if unders.isEmpty then
    let quotas := _get_quotas s tenant_id resources
    let overs := (values.filter
      (fun p => 0 ≤ dictGetD quotas p.1 0 && dictGetD quotas p.1 0 < p.2)).map Prod.fst
    if overs.isEmpty then
      .ok
    else
      .overQuota (overs.insertionSort (fun a b => a ≤ b))
  else
    .invalidQuotaValue (unders.insertionSort (fun a b => a ≤ b))

/-! ### Association-list (Python dict) lemmas -/

lemma contains_eq_true_iff {l : List String} {a : String} :
    l.contains a = true ↔ a ∈ l := by
  simp [List.contains, List.elem_eq_mem]

lemma find?_map_dictSet_of_any {d : List (String × Int)} {k : String} {v : Int}
    (h : d.any (fun p => p.1 == k) = true) :
    (d.map (fun p => if p.1 == k then (k, v) else p)).find? (fun p => p.1 == k)
      = some (k, v) := by
  induction d with
  | nil => simp at h
  | cons p rest ih =>
    by_cases hp : p.1 = k
    · have hp' : (p.1 == k) = true := beq_iff_eq.mpr hp
      simp [List.find?, hp']
    · have hp' : (p.1 == k) = false := beq_eq_false_iff_ne.mpr hp
      have hrest : rest.any (fun q => q.1 == k) = true := by
        rw [List.any_cons, hp'] at h
        simpa using h
      simpa [List.find?, hp'] using ih hrest

lemma find?_none_of_any_false {d : List (String × Int)} {k : String}
    (h : d.any (fun p => p.1 == k) = false) :
    d.find? (fun p => p.1 == k) = none := by
  rw [List.find?_eq_none]
  intro x hx hxk
  have hat : d.any (fun p => p.1 == k) = true := by
    have : ∃ x ∈ d, (x.1 == k) = true := ⟨x, hx, hxk⟩
    exact List.any_eq_true.mpr this
  rw [h] at hat
  exact Bool.false_ne_true hat

lemma dictGet_dictSet_self (d : List (String × Int)) (k : String) (v : Int) :
    dictGet (dictSet d k v) k = some v := by
  unfold dictGet dictSet
  cases hany : d.any (fun p => p.1 == k) with
  | true =>
    rw [if_pos rfl, find?_map_dictSet_of_any hany]
    rfl
  | false =>
    rw [if_neg (by simp), List.find?_append, find?_none_of_any_false hany,
      Option.none_or]
    simp [List.find?]

lemma find?_map_dictSet_ne {d : List (String × Int)} {k k' : String} {v : Int}
    (h : k' ≠ k) :
    (d.map (fun p => if p.1 == k then (k, v) else p)).find? (fun p => p.1 == k')
      = d.find? (fun p => p.1 == k') := by
  induction d with
  | nil => rfl
  | cons p rest ih =>
    rw [List.map_cons]
    by_cases hp : p.1 = k
    · have hp' : (p.1 == k) = true := beq_iff_eq.mpr hp
      have hne : (k == k') = false := beq_eq_false_iff_ne.mpr (Ne.symm h)
      have hne' : (p.1 == k') = false := beq_eq_false_iff_ne.mpr (hp ▸ Ne.symm h)
      rw [if_pos hp']
      simp only [List.find?_cons, hne, hne']
      exact ih
    · have hp' : (p.1 == k) = false := beq_eq_false_iff_ne.mpr hp
      rw [if_neg (by simp [hp'])]
      by_cases hpk : p.1 = k'
      · have hpk' : (p.1 == k') = true := beq_iff_eq.mpr hpk
        simp only [List.find?_cons, hpk']
      · have hpk' : (p.1 == k') = false := beq_eq_false_iff_ne.mpr hpk
        simp only [List.find?_cons, hpk']
        exact ih

lemma dictGet_dictSet_ne (d : List (String × Int)) {k k' : String} (v : Int)
    (h : k' ≠ k) :
    dictGet (dictSet d k v) k' = dictGet d k' := by
  unfold dictGet dictSet
  cases hany : d.any (fun p => p.1 == k) with
  | true =>
    rw [if_pos rfl, find?_map_dictSet_ne h]
  | false =>
    have hk : ((k, v).1 == k') = false := beq_eq_false_iff_ne.mpr (Ne.symm h)
    rw [if_neg (by simp), List.find?_append]
    simp [List.find?, hk, Option.or_none]

lemma dictGet_overlay (rows : List QuotaRow) (init : List (String × Int)) (R : String) :
    dictGet (overlay init rows) R =
      match rows.reverse.find? (fun row => row.resource == R) with
      | some row => some row.limit
      | none => dictGet init R := by
  induction rows generalizing init with
  | nil => simp [overlay]
  | cons a tl ih =>
    have hstep : overlay init (a :: tl) = overlay (dictSet init a.resource a.limit) tl := by
      simp [overlay]
    rw [hstep, ih]
    have hrev : (a :: tl).reverse = tl.reverse ++ [a] := by simp
    rw [hrev, List.find?_append]
    cases hfind : tl.reverse.find? (fun row => row.resource == R) with
    | some row => rfl
    | none =>
      rw [Option.none_or]
      by_cases ha : a.resource = R
      · have ha' : (a.resource == R) = true := beq_iff_eq.mpr ha
        simp only [List.find?_cons, ha']
        rw [ha]
        exact dictGet_dictSet_self init R a.limit
      · have ha' : (a.resource == R) = false := beq_eq_false_iff_ne.mpr ha
        simp only [List.find?_cons, ha', List.find?_nil]
        simpa using dictGet_dictSet_ne init a.limit (Ne.symm ha)

lemma mem_keys_dictSet_of_mem {d : List (String × Int)} {k' : String}
    (k : String) (v : Int) (h : k' ∈ d.map Prod.fst) :
    k' ∈ (dictSet d k v).map Prod.fst := by
  unfold dictSet
  cases hany : d.any (fun p => p.1 == k) with
  | true =>
    rw [if_pos rfl]
    rcases List.mem_map.mp h with ⟨p, hp, hpk⟩
    by_cases hpk2 : p.1 = k
    · refine List.mem_map.mpr ⟨(k, v), List.mem_map.mpr ⟨p, hp, ?_⟩, ?_⟩
      · rw [if_pos (beq_iff_eq.mpr hpk2)]
      · rw [← hpk, hpk2]
    · refine List.mem_map.mpr ⟨p, List.mem_map.mpr ⟨p, hp, ?_⟩, hpk⟩
      rw [if_neg (by simp [beq_eq_false_iff_ne.mpr hpk2])]
  | false =>
    rw [if_neg (by simp), List.map_append, List.mem_append]
    exact Or.inl h

lemma mem_keys_dictSet_self (d : List (String × Int)) (k : String) (v : Int) :
    k ∈ (dictSet d k v).map Prod.fst := by
  unfold dictSet
  cases hany : d.any (fun p => p.1 == k) with
  | true =>
    rw [if_pos rfl]
    rcases List.any_eq_true.mp hany with ⟨p, hp, hpk⟩
    refine List.mem_map.mpr ⟨(k, v), List.mem_map.mpr ⟨p, hp, ?_⟩, rfl⟩
    rw [if_pos hpk]
  | false =>
    rw [if_neg (by simp)]
    simp

lemma mem_keys_overlay_of_mem_init {rows : List QuotaRow}
    {init : List (String × Int)} {k : String} (h : k ∈ init.map Prod.fst) :
    k ∈ (overlay init rows).map Prod.fst := by
  induction rows generalizing init with
  | nil => simpa [overlay] using h
  | cons a tl ih =>
    have hstep : overlay init (a :: tl) = overlay (dictSet init a.resource a.limit) tl := by
      simp [overlay]
    rw [hstep]
    exact ih (mem_keys_dictSet_of_mem a.resource a.limit h)

lemma mem_keys_overlay_of_mem_rows {rows : List QuotaRow}
    {init : List (String × Int)} {row : QuotaRow} (h : row ∈ rows) :
    row.resource ∈ (overlay init rows).map Prod.fst := by
  induction rows generalizing init with
  | nil => simp at h
  | cons a tl ih =>
    have hstep : overlay init (a :: tl) = overlay (dictSet init a.resource a.limit) tl := by
      simp [overlay]
    rw [hstep]
    rcases List.mem_cons.mp h with rfl | htl
    · exact mem_keys_overlay_of_mem_init (mem_keys_dictSet_self init row.resource row.limit)
    · exact ih htl

lemma dictGet_map_self {l : List String} {r : String} (g : String → Int)
    (h : r ∈ l) :
    dictGet (l.map (fun x => (x, g x))) r = some (g r) := by
  induction l with
  | nil => simp at h
  | cons a tl ih =>
    unfold dictGet
    rw [List.map_cons]
    by_cases ha : a = r
    · simp only [List.find?_cons, beq_iff_eq.mpr ha]
      rw [ha]
      rfl
    · have ha' : (a == r) = false := beq_eq_false_iff_ne.mpr ha
      simp only [List.find?_cons, ha']
      have htl : r ∈ tl := by
        rcases List.mem_cons.mp h with rfl | htl
        · exact absurd rfl ha
        · exact htl
      exact ih htl

lemma dictGetD_map_self {l : List String} {r : String} (g : String → Int)
    (dflt : Int) (h : r ∈ l) :
    dictGetD (l.map (fun x => (x, g x))) r dflt = g r := by
  unfold dictGetD
  rw [dictGet_map_self g h]
  rfl

/-! ### Characterizing the verification loop of `make_reservation` -/

lemma remove_expired_idem (s : Store) (t : String) :
    remove_expired_reservations (remove_expired_reservations s t) t
      = remove_expired_reservations s t := by
  unfold remove_expired_reservations
  simp [List.filter_filter]

lemma foldl_checkStep_overs (L U E D : List (String × Int)) (t : String)
    (l : List String) (acc : List String × Store) :
    (l.foldl (reservationCheckStep L U E D t) acc).1
      = acc.1 ++ l.filter (fun r => decide (res_headroom L U E r < dictGetD D r 0)) := by
  induction l generalizing acc with
  | nil => simp
  | cons r tl ih =>
    rw [List.foldl_cons, ih]
    by_cases hc : res_headroom L U E r < dictGetD D r 0
    · have hc' : res_headroom L U E r < dictGetD D r 0 := hc
      unfold res_headroom at hc'
      simp [reservationCheckStep, res_headroom, hc, hc', List.filter_cons]
    · have hc' : ¬ res_headroom L U E r < dictGetD D r 0 := hc
      unfold res_headroom at hc'
      simp [reservationCheckStep, res_headroom, hc, hc', List.filter_cons]

lemma foldl_checkStep_store (L U E D : List (String × Int)) (t : String)
    (l : List String) (acc : List String × Store) :
    (l.foldl (reservationCheckStep L U E D t) acc).2
      = if l.any (fun r => decide (dictGetD E r 0 ≠ 0)) then
          remove_expired_reservations acc.2 t
        else acc.2 := by
  induction l generalizing acc with
  | nil => simp
  | cons r tl ih =>
    rw [List.foldl_cons, ih]
    by_cases he : dictGetD E r 0 ≠ 0
    · by_cases ht : tl.any (fun r => decide (dictGetD E r 0 ≠ 0)) = true
      · simp [reservationCheckStep, he, ht, List.any_cons, remove_expired_idem]
      · simp [reservationCheckStep, he, ht, List.any_cons, remove_expired_idem]
    · simp [reservationCheckStep, he, List.any_cons, remove_expired_idem]

lemma make_reservation_eq (s : Store) (t : String)
    (resources : List (String × Resource)) (deltas : List (String × Int)) :
    make_reservation s t resources deltas =
      (let L := get_tenant_quotas s resources t
       let req := requested_resources deltas L
       let U := current_usages s resources t req
       let E := get_reservations_for_resources s t req
       let overs := req.filter
         (fun r => decide (res_headroom L U E r < dictGetD deltas r 0))
       let s1 := if req.any (fun r => decide (dictGetD E r 0 ≠ 0)) then
           remove_expired_reservations s t
         else s
       if overs.isEmpty then
         (.ok s1.nextId, (create_reservation s1 t deltas).2, req)
       else
         (.overQuota (overs.insertionSort (fun a b => a ≤ b)), s1, req)) := by
  simp only [make_reservation]
  rw [foldl_checkStep_overs, foldl_checkStep_store]
  simp [create_reservation]

lemma make_reservation_counted (s : Store) (t : String)
    (resources : List (String × Resource)) (deltas : List (String × Int)) :
    (make_reservation s t resources deltas).2.2
      = requested_resources deltas (get_tenant_quotas s resources t) := by
  simp only [make_reservation_eq]
  split
  · rfl
  · rfl

lemma res_headroom_mem (s : Store) (t : String)
    (resources : List (String × Resource)) {req : List String} {r : String}
    (h : r ∈ req) :
    res_headroom (get_tenant_quotas s resources t)
        (current_usages s resources t req)
        (get_reservations_for_resources s t req) r
      = dictGetD (get_tenant_quotas s resources t) r 0
          - ((resourceGetD resources r).count s t - expiredSum s t r) := by
  unfold res_headroom current_usages get_reservations_for_resources
  rw [dictGetD_map_self _ _ h, dictGetD_map_self _ _ h]

lemma mem_unlimited_of_mem {L : List (String × Int)} {r : String} {lim : Int}
    (h : (r, lim) ∈ L) (hneg : lim < 0) :
    r ∈ unlimited_resources L := by
  unfold unlimited_resources
  exact List.mem_map.mpr ⟨(r, lim), List.mem_filter.mpr ⟨h, by simpa using hneg⟩, rfl⟩

lemma not_mem_requested_of_unlimited {L D : List (String × Int)} {r : String}
    (h : r ∈ unlimited_resources L) :
    r ∉ requested_resources D L := by
  unfold requested_resources
  intro hmem
  have hcontains := (List.mem_filter.mp hmem).2
  rw [contains_eq_true_iff.mpr h] at hcontains
  simp at hcontains

/-- The sum of the tenant's pending (non-expired) reservation deltas for a
resource kind; used to build the counting capabilities of the scenarios
(per the spec, a tracked resource's count reflects committed units plus
pending reserved amounts, while expired reservations no longer reserve). -/
def pendingSum (s : Store) (tenant_id r : String) : Int :=
  ((s.reservations.filter (fun v => v.tenant_id == tenant_id && !v.expired)).map
    (fun v => dictGetD v.deltas r 0)).sum

/-- Scenario of C1: one resource kind "R" with limit 10 whose counting
capability reports 4 committed units plus the tenant's pending reserved
amounts. -/
def c1res : List (String × Resource) :=
  [("R", ⟨10, fun s t => 4 + pendingSum s t "R"⟩)]

/-- Scenario store of C1: one pending reservation of delta 3 on "R". -/
def c1store : Store :=
  ⟨[], [⟨0, "t", [("R", 3)], false⟩], 1⟩

/-- C1: in `make_reservation`, for every requested resource kind that is
not unlimited, headroom is the effective limit minus (counted usage minus
the summed deltas of the tenant's expired reservations for that kind), and
the kind is marked over-limit exactly when headroom is strictly below the
requested delta.  Concretely (limit 10, counted usage 4 committed plus a
pending reservation of 3): headroom is 3, delta 3 is granted, delta 4 is
denied naming "R". -/
theorem C1_headroom_decision :
    (∀ (s : Store) (t : String) (resources : List (String × Resource))
        (deltas : List (String × Int)) (r : String),
        r ∈ (make_reservation s t resources deltas).2.2 →
        ∀ l, (make_reservation s t resources deltas).1 = .overQuota l →
          (r ∈ l ↔ dictGetD (get_tenant_quotas s resources t) r 0
              - ((resourceGetD resources r).count s t - expiredSum s t r)
              < dictGetD deltas r 0)) ∧
    (∀ (s : Store) (t : String) (resources : List (String × Resource))
        (deltas : List (String × Int)) (r : String),
        r ∈ (make_reservation s t resources deltas).2.2 →
        ∀ i, (make_reservation s t resources deltas).1 = .ok i →
          ¬ (dictGetD (get_tenant_quotas s resources t) r 0
              - ((resourceGetD resources r).count s t - expiredSum s t r)
              < dictGetD deltas r 0)) ∧
    dictGetD (get_tenant_quotas c1store c1res "t") "R" 0
        - ((resourceGetD c1res "R").count c1store "t" - expiredSum c1store "t" "R")
      = 3 ∧
    (make_reservation c1store "t" c1res [("R", 3)]).1 = .ok 1 ∧
    (make_reservation c1store "t" c1res [("R", 4)]).1 = .overQuota ["R"] := by
  refine ⟨?_, ?_, by decide, by decide, by decide⟩
  · intro s t resources deltas r hr l hl
    rw [make_reservation_counted] at hr
    rw [← res_headroom_mem s t resources hr]
    simp only [make_reservation_eq] at hl
    split at hl
    · exact absurd hl (by simp)
    · have hl' : (List.filter (fun r =>
          decide (res_headroom (get_tenant_quotas s resources t)
            (current_usages s resources t
              (requested_resources deltas (get_tenant_quotas s resources t)))
            (get_reservations_for_resources s t
              (requested_resources deltas (get_tenant_quotas s resources t))) r
            < dictGetD deltas r 0))
          (requested_resources deltas (get_tenant_quotas s resources t))).insertionSort
            (fun a b => a ≤ b) = l := by
        injection hl
      rw [← hl', (List.perm_insertionSort _ _).mem_iff, List.mem_filter]
      constructor
      · intro hh
        exact of_decide_eq_true hh.2
      · intro hh
        exact ⟨hr, decide_eq_true hh⟩
  · intro s t resources deltas r hr i hi
    rw [make_reservation_counted] at hr
    rw [← res_headroom_mem s t resources hr]
    simp only [make_reservation_eq] at hi
    split at hi
    · next hempty =>
      have hnil := List.isEmpty_iff.mp hempty
      rw [List.filter_eq_nil_iff] at hnil
      intro hcond
      exact absurd (decide_eq_true hcond) (by simpa using hnil r hr)
    · exact absurd hi (by simp)

/-- Witness for C1: the general over-limit characterization applied to the
concrete denial scenario (delta 4 against headroom 3). -/
theorem C1_headroom_decision_witness :
    "R" ∈ (make_reservation c1store "t" c1res [("R", 4)]).2.2 ∧
    ("R" ∈ ["R"] ↔ dictGetD (get_tenant_quotas c1store c1res "t") "R" 0
        - ((resourceGetD c1res "R").count c1store "t" - expiredSum c1store "t" "R")
        < dictGetD [("R", 4)] "R" 0) :=
  ⟨by decide,
   C1_headroom_decision.1 c1store "t" c1res [("R", 4)] "R" (by decide) ["R"] (by decide)⟩

/-- The empty store: no override rows, no reservations. -/
def emptyStore : Store := ⟨[], [], 0⟩

/-- Scenario of C4: resource kind "R" registered with the unlimited
default limit -1 (its counting capability is irrelevant). -/
def c4res : List (String × Resource) :=
  [("R", ⟨-1, fun _ _ => 0⟩)]

/-- C4: a requested resource kind whose effective limit is negative
(unlimited) is never usage-counted (it is not among the kinds whose
counting capability `make_reservation` invokes) and never appears in an
OverQuota denial, whatever its requested delta. -/
theorem C4_unlimited_never_counted_never_denied :
    ∀ (s : Store) (t : String) (resources : List (String × Resource))
      (deltas : List (String × Int)) (r : String) (lim : Int),
      (r, lim) ∈ get_tenant_quotas s resources t → lim < 0 →
      r ∉ (make_reservation s t resources deltas).2.2 ∧
      (∀ l, (make_reservation s t resources deltas).1 = .overQuota l → r ∉ l) := by
  intro s t resources deltas r lim hmem hneg
  have hun : r ∈ unlimited_resources (get_tenant_quotas s resources t) :=
    mem_unlimited_of_mem hmem hneg
  have hnreq : r ∉ requested_resources deltas (get_tenant_quotas s resources t) :=
    not_mem_requested_of_unlimited (D := deltas) hun
  constructor
  · rw [make_reservation_counted]
    exact hnreq
  · intro l hl
    simp only [make_reservation_eq] at hl
    split at hl
    · exact absurd hl (by simp)
    · have hl' : (List.filter (fun r =>
          decide (res_headroom (get_tenant_quotas s resources t)
            (current_usages s resources t
              (requested_resources deltas (get_tenant_quotas s resources t)))
            (get_reservations_for_resources s t
              (requested_resources deltas (get_tenant_quotas s resources t))) r
            < dictGetD deltas r 0))
          (requested_resources deltas (get_tenant_quotas s resources t))).insertionSort
            (fun a b => a ≤ b) = l := by
        injection hl
      intro hrl
      rw [← hl', (List.perm_insertionSort _ _).mem_iff, List.mem_filter] at hrl
      exact hnreq hrl.1

/-- Witness for C4: with "R" registered unlimited (default -1), a huge
requested delta is neither counted nor denied. -/
theorem C4_unlimited_never_counted_never_denied_witness :
    (("R", (-1 : Int)) ∈ get_tenant_quotas emptyStore c4res "t" ∧ (-1 : Int) < 0) ∧
    ("R" ∉ (make_reservation emptyStore "t" c4res [("R", 1000000)]).2.2 ∧
     (∀ l, (make_reservation emptyStore "t" c4res [("R", 1000000)]).1 = .overQuota l →
        "R" ∉ l)) :=
  ⟨⟨by decide, by decide⟩,
   C4_unlimited_never_counted_never_denied emptyStore "t" c4res [("R", 1000000)]
     "R" (-1) (by decide) (by decide)⟩

/-- Scenario of C2: resource kind "R" with limit 5 and zero committed
usage; its counting capability reports the tenant's pending reserved
amounts (per the spec's usage model for tracked resources). -/
def c2res : List (String × Resource) :=
  [("R", ⟨5, fun s t => pendingSum s t "R"⟩)]

/-- Modelled from the spec: the check-and-insert sequence of
`make_reservation` runs inside one atomic transaction holding write locks,
so two concurrent calls serialize; the observable outcomes are those of
the two sequential execution orders (each pair lists the outcome of the
first-executed call, then of the second). -/
def serializedOutcomes (s : Store) (t : String) (res : List (String × Resource))
    (d1 d2 : List (String × Int)) : List (MakeResResult × MakeResResult) :=
  [((make_reservation s t res d1).1,
    (make_reservation (make_reservation s t res d1).2.1 t res d2).1),
   ((make_reservation s t res d2).1,
    (make_reservation (make_reservation s t res d2).2.1 t res d1).1)]

/-- C2: limit 5, usage 0, two concurrent delta-3 reservations: in every
serialization order exactly one call succeeds and the other fails with
OverQuota naming "R" — never both succeed. -/
theorem C2_concurrent_exactly_one_success :
    serializedOutcomes emptyStore "t" c2res [("R", 3)] [("R", 3)]
      = [(.ok 0, .overQuota ["R"]), (.ok 0, .overQuota ["R"])] := by
  decide

/-- C3: whenever at least one requested resource kind lacks headroom, the
whole call fails with OverQuota carrying the sorted list of every
offending requested kind (not only the first), that list is sorted, and no
reservation row is created: the store keeps its next fresh id and gains no
row (every surviving reservation row already existed). -/
theorem C3_overquota_whole_request :
    ∀ (s : Store) (t : String) (resources : List (String × Resource))
      (deltas : List (String × Int)),
      (∃ r ∈ (make_reservation s t resources deltas).2.2,
        dictGetD (get_tenant_quotas s resources t) r 0
            - ((resourceGetD resources r).count s t - expiredSum s t r)
          < dictGetD deltas r 0) →
      (make_reservation s t resources deltas).1
          = .overQuota ((((make_reservation s t resources deltas).2.2).filter
              (fun r => decide (dictGetD (get_tenant_quotas s resources t) r 0
                  - ((resourceGetD resources r).count s t - expiredSum s t r)
                < dictGetD deltas r 0))).insertionSort (fun a b => a ≤ b)) ∧
      (∀ l, (make_reservation s t resources deltas).1 = .overQuota l →
        l.Sorted (fun a b => a ≤ b)) ∧
      ((make_reservation s t resources deltas).2.1).nextId = s.nextId ∧
      (∀ v ∈ ((make_reservation s t resources deltas).2.1).reservations,
        v ∈ s.reservations) := by
  intro s t resources deltas hex
  rcases hex with ⟨r, hr, hcond⟩
  rw [make_reservation_counted] at hr
  have hcond' : res_headroom (get_tenant_quotas s resources t)
      (current_usages s resources t
        (requested_resources deltas (get_tenant_quotas s resources t)))
      (get_reservations_for_resources s t
        (requested_resources deltas (get_tenant_quotas s resources t))) r
      < dictGetD deltas r 0 := by
    rw [res_headroom_mem s t resources hr]
    exact hcond
  have hfc : ((requested_resources deltas (get_tenant_quotas s resources t)).filter
        (fun x => decide (res_headroom (get_tenant_quotas s resources t)
          (current_usages s resources t
            (requested_resources deltas (get_tenant_quotas s resources t)))
          (get_reservations_for_resources s t
            (requested_resources deltas (get_tenant_quotas s resources t))) x
          < dictGetD deltas x 0)))
      = ((requested_resources deltas (get_tenant_quotas s resources t)).filter
        (fun x => decide (dictGetD (get_tenant_quotas s resources t) x 0
            - ((resourceGetD resources x).count s t - expiredSum s t x)
          < dictGetD deltas x 0))) := by
    refine List.filter_congr ?_
    intro x hx
    rw [res_headroom_mem s t resources hx]
  have hne : ¬ ((requested_resources deltas (get_tenant_quotas s resources t)).filter
      (fun x => decide (res_headroom (get_tenant_quotas s resources t)
        (current_usages s resources t
          (requested_resources deltas (get_tenant_quotas s resources t)))
        (get_reservations_for_resources s t
          (requested_resources deltas (get_tenant_quotas s resources t))) x
        < dictGetD deltas x 0))).isEmpty = true := by
    intro hemp
    rw [List.isEmpty_iff, List.filter_eq_nil_iff] at hemp
    exact absurd (decide_eq_true hcond') (by simpa using hemp r hr)
  refine ⟨?_, ?_, ?_, ?_⟩
  · rw [make_reservation_counted]
    simp only [make_reservation_eq]
    rw [if_neg hne, hfc]
  · intro l hl
    simp only [make_reservation_eq] at hl
    split at hl
    · exact absurd hl (by simp)
    · have hl' : (List.filter (fun x =>
          decide (res_headroom (get_tenant_quotas s resources t)
            (current_usages s resources t
              (requested_resources deltas (get_tenant_quotas s resources t)))
            (get_reservations_for_resources s t
              (requested_resources deltas (get_tenant_quotas s resources t))) x
            < dictGetD deltas x 0))
          (requested_resources deltas (get_tenant_quotas s resources t))).insertionSort
            (fun a b => a ≤ b) = l := by
        injection hl
      rw [← hl']
      exact List.sorted_insertionSort (fun a b => a ≤ b) _
  · simp only [make_reservation_eq]
    rw [if_neg hne]
    split
    · rfl
    · rfl
  · intro v hv
    simp only [make_reservation_eq] at hv
    rw [if_neg hne] at hv
    split at hv
    · exact List.mem_of_mem_filter hv
    · exact hv

/-- Witness for C3: the C1 denial scenario (delta 4 against headroom 3)
instantiates the over-limit hypothesis. -/
theorem C3_overquota_whole_request_witness :
    (∃ r ∈ (make_reservation c1store "t" c1res [("R", 4)]).2.2,
      dictGetD (get_tenant_quotas c1store c1res "t") r 0
          - ((resourceGetD c1res r).count c1store "t" - expiredSum c1store "t" r)
        < dictGetD [("R", 4)] r 0) ∧
    (make_reservation c1store "t" c1res [("R", 4)]).1
        = .overQuota ((((make_reservation c1store "t" c1res [("R", 4)]).2.2).filter
            (fun r => decide (dictGetD (get_tenant_quotas c1store c1res "t") r 0
                - ((resourceGetD c1res r).count c1store "t" - expiredSum c1store "t" r)
              < dictGetD [("R", 4)] r 0))).insertionSort (fun a b => a ≤ b)) :=
  ⟨⟨"R", by decide, by decide⟩,
   (C3_overquota_whole_request c1store "t" c1res [("R", 4)]
      ⟨"R", by decide, by decide⟩).1⟩

/-- Counterexample store of C7: two expired reservations of tenant "t" on
kind "R" whose deltas (+2 and -2) sum to zero. -/
def c7store : Store :=
  ⟨[], [⟨0, "t", [("R", 2)], true⟩, ⟨1, "t", [("R", -2)], true⟩], 2⟩

/-- Resource registry of the C7 counterexample. -/
def c7res : List (String × Resource) :=
  [("R", ⟨10, fun _ _ => 0⟩)]

/-- Counterexample to C7 as stated: expired reservations of the tenant for
the requested kind "R" exist (and are seen by the headroom pass), yet
`make_reservation` triggers no reclamation, because the deltas sum to zero
and the code only reclaims on a nonzero summed expired delta: the expired
rows survive in the resulting store. -/
theorem C7_reclamation_counterexample :
    (∃ v ∈ c7store.reservations, v.tenant_id = "t" ∧ v.expired = true ∧
        "R" ∈ v.deltas.map Prod.fst) ∧
    "R" ∈ (make_reservation c7store "t" c7res [("R", 1)]).2.2 ∧
    (∃ v ∈ ((make_reservation c7store "t" c7res [("R", 1)]).2.1).reservations,
      v.tenant_id = "t" ∧ v.expired = true) ∧
    ((make_reservation c7store "t" c7res [("R", 1)]).2.1).reservations
      ≠ (remove_expired_reservations c7store "t").reservations
        ++ [⟨2, "t", [("R", 1)], false⟩] := by
  decide

lemma any_expired_congr (s : Store) (t : String) (req : List String) :
    (req.any (fun r =>
        decide (dictGetD (get_reservations_for_resources s t req) r 0 ≠ 0)))
      = (req.any (fun r => decide (expiredSum s t r ≠ 0))) := by
  rw [Bool.eq_iff_iff, List.any_eq_true, List.any_eq_true]
  constructor
  · rintro ⟨x, hx, hdec⟩
    refine ⟨x, hx, ?_⟩
    rw [decide_eq_true_eq] at hdec
    rw [decide_eq_true_eq]
    unfold get_reservations_for_resources at hdec
    rwa [dictGetD_map_self _ _ hx] at hdec
  · rintro ⟨x, hx, hdec⟩
    refine ⟨x, hx, ?_⟩
    rw [decide_eq_true_eq] at hdec
    rw [decide_eq_true_eq]
    unfold get_reservations_for_resources
    rwa [dictGetD_map_self _ _ hx]

/-- C7 amended: the only store mutations of `make_reservation` are the
deletion of the tenant's expired reservation rows — triggered exactly when
the summed expired delta of some requested (non-unlimited) kind is
nonzero, not merely when an expired reservation exists — and the creation
of one reservation row on success; quota limit rows and other tenants'
reservation rows are untouched. -/
theorem C7_store_mutations :
    ∀ (s : Store) (t : String) (resources : List (String × Resource))
      (deltas : List (String × Int)),
      ((make_reservation s t resources deltas).2.1).quotas = s.quotas ∧
      (∀ i, (make_reservation s t resources deltas).1 = .ok i →
        ((make_reservation s t resources deltas).2.1).reservations
          = (if ((make_reservation s t resources deltas).2.2).any
                (fun r => decide (expiredSum s t r ≠ 0)) then
              remove_expired_reservations s t
            else s).reservations ++ [⟨i, t, deltas, false⟩]) ∧
      (∀ l, (make_reservation s t resources deltas).1 = .overQuota l →
        ((make_reservation s t resources deltas).2.1).reservations
          = (if ((make_reservation s t resources deltas).2.2).any
                (fun r => decide (expiredSum s t r ≠ 0)) then
              remove_expired_reservations s t
            else s).reservations) ∧
      (∀ v ∈ s.reservations, v.tenant_id ≠ t →
        v ∈ ((make_reservation s t resources deltas).2.1).reservations) := by
  intro s t resources deltas
  refine ⟨?_, ?_, ?_, ?_⟩
  · simp only [make_reservation_eq]
    split
    · split
      · rfl
      · rfl
    · split
      · rfl
      · rfl
  · intro i hi
    rw [make_reservation_counted, ← any_expired_congr s t]
    simp only [make_reservation_eq] at hi ⊢
    by_cases hemp : (List.filter (fun r =>
        decide (res_headroom (get_tenant_quotas s resources t)
          (current_usages s resources t
            (requested_resources deltas (get_tenant_quotas s resources t)))
          (get_reservations_for_resources s t
            (requested_resources deltas (get_tenant_quotas s resources t))) r
          < dictGetD deltas r 0))
        (requested_resources deltas (get_tenant_quotas s resources t))).isEmpty = true
    · rw [if_pos hemp] at hi ⊢
      have hi' : (if (requested_resources deltas
            (get_tenant_quotas s resources t)).any
            (fun r => decide (dictGetD (get_reservations_for_resources s t
              (requested_resources deltas (get_tenant_quotas s resources t))) r 0
                ≠ 0)) then
          remove_expired_reservations s t else s).nextId = i := by
        injection hi
      rw [← hi']
      rfl
    · rw [if_neg hemp] at hi
      exact absurd hi (by simp)
  · intro l hl
    rw [make_reservation_counted, ← any_expired_congr s t]
    simp only [make_reservation_eq] at hl ⊢
    by_cases hemp : (List.filter (fun r =>
        decide (res_headroom (get_tenant_quotas s resources t)
          (current_usages s resources t
            (requested_resources deltas (get_tenant_quotas s resources t)))
          (get_reservations_for_resources s t
            (requested_resources deltas (get_tenant_quotas s resources t))) r
          < dictGetD deltas r 0))
        (requested_resources deltas (get_tenant_quotas s resources t))).isEmpty = true
    · rw [if_pos hemp] at hl
      exact absurd hl (by simp)
    · rw [if_neg hemp]
  · intro v hv hvt
    simp only [make_reservation_eq]
    have hbase : ∀ u : Store, u = remove_expired_reservations s t ∨ u = s →
        v ∈ u.reservations := by
      rintro u (rfl | rfl)
      · refine List.mem_filter.mpr ⟨hv, ?_⟩
        have : (v.tenant_id == t) = false := beq_eq_false_iff_ne.mpr hvt
        simp [this]
      · exact hv
    split
    · rw [create_reservation]
      refine List.mem_append_left _ ?_
      split
      · exact hbase _ (Or.inl rfl)
      · exact hbase _ (Or.inr rfl)
    · split
      · exact hbase _ (Or.inl rfl)
      · exact hbase _ (Or.inr rfl)

/-- Witness for C7 (amended): the success branch characterization applied
to the C1 grant scenario. -/
theorem C7_store_mutations_witness :
    (make_reservation c1store "t" c1res [("R", 3)]).1 = .ok 1 ∧
    ((make_reservation c1store "t" c1res [("R", 3)]).2.1).reservations
      = (if ((make_reservation c1store "t" c1res [("R", 3)]).2.2).any
            (fun r => decide (expiredSum c1store "t" r ≠ 0)) then
          remove_expired_reservations c1store "t"
        else c1store).reservations ++ [⟨1, "t", [("R", 3)], false⟩] :=
  ⟨by decide,
   (C7_store_mutations c1store "t" c1res [("R", 3)]).2.1 1 (by decide)⟩

lemma _get_quotas_eq (s : Store) (t : String)
    (resources : List (String × Resource)) :
    _get_quotas s t resources = get_tenant_quotas s resources t := by
  unfold _get_quotas
  simp

/-- Scenario of C5: resource kind "R" registered with default limit 50. -/
def c5res : List (String × Resource) :=
  [("R", ⟨50, fun _ _ => 0⟩)]

/-- C5: `limit_check` fails with InvalidQuotaValue (sorted offending keys)
whenever some proposed value is negative, regardless of limits — in
particular on a value of -1 even for an unlimited resource; with all
values non-negative it fails with OverQuota (sorted offending keys)
whenever some value strictly exceeds its non-negative effective limit, and
succeeds otherwise.  The embedded `limit_check` only reads the store and
returns a result, so success has no observable effect. -/
theorem C5_limit_check_cases :
    (∀ (s : Store) (t : String) (resources : List (String × Resource))
        (values : List (String × Int)),
      (values.any (fun p => decide (p.2 < 0)) = true →
        limit_check s t resources values
          = .invalidQuotaValue (((values.filter (fun p => decide (p.2 < 0))).map
              Prod.fst).insertionSort (fun a b => a ≤ b))) ∧
      ((∀ p ∈ values, p.1 ∈ (get_tenant_quotas s resources t).map Prod.fst) →
        values.all (fun p => decide (0 ≤ p.2)) = true →
        values.any (fun p =>
            0 ≤ dictGetD (get_tenant_quotas s resources t) p.1 0 &&
              dictGetD (get_tenant_quotas s resources t) p.1 0 < p.2) = true →
        limit_check s t resources values
          = .overQuota (((values.filter (fun p =>
              0 ≤ dictGetD (get_tenant_quotas s resources t) p.1 0 &&
                dictGetD (get_tenant_quotas s resources t) p.1 0 < p.2)).map
              Prod.fst).insertionSort (fun a b => a ≤ b))) ∧
      ((∀ p ∈ values, p.1 ∈ (get_tenant_quotas s resources t).map Prod.fst) →
        values.all (fun p => decide (0 ≤ p.2)) = true →
        values.all (fun p =>
            !(0 ≤ dictGetD (get_tenant_quotas s resources t) p.1 0 &&
              dictGetD (get_tenant_quotas s resources t) p.1 0 < p.2)) = true →
        limit_check s t resources values = .ok)) ∧
    (∀ (s : Store) (t : String) (resources : List (String × Resource)) (R : String),
      limit_check s t resources [(R, -1)] = .invalidQuotaValue [R]) := by
  constructor
  · intro s t resources values
    refine ⟨?_, ?_, ?_⟩
    · intro hany
      rcases List.any_eq_true.mp hany with ⟨p, hp, hpc⟩
      have hfm : p.1 ∈ (values.filter (fun p => decide (p.2 < 0))).map Prod.fst :=
        List.mem_map.mpr ⟨p, List.mem_filter.mpr ⟨hp, hpc⟩, rfl⟩
      have hne : ¬ ((values.filter (fun p => decide (p.2 < 0))).map
          Prod.fst).isEmpty = true := by
        rw [List.isEmpty_iff]
        exact List.ne_nil_of_mem hfm
      simp only [limit_check]
      rw [if_neg hne]
    · intro _ hall hany
      have hud : values.filter (fun p => decide (p.2 < 0)) = [] := by
        rw [List.filter_eq_nil_iff]
        intro p hp
        have h0 := of_decide_eq_true (List.all_eq_true.mp hall p hp)
        simp [not_lt.mpr h0]
      rcases List.any_eq_true.mp hany with ⟨p, hp, hpc⟩
      simp only [limit_check]
      rw [hud, if_pos (show (List.map Prod.fst ([] : List (String × Int))).isEmpty = true from rfl), _get_quotas_eq]
      have hfm : p.1 ∈ (values.filter (fun p =>
          0 ≤ dictGetD (get_tenant_quotas s resources t) p.1 0 &&
            dictGetD (get_tenant_quotas s resources t) p.1 0 < p.2)).map Prod.fst :=
        List.mem_map.mpr ⟨p, List.mem_filter.mpr ⟨hp, hpc⟩, rfl⟩
      have hne : ¬ ((values.filter (fun p =>
          0 ≤ dictGetD (get_tenant_quotas s resources t) p.1 0 &&
            dictGetD (get_tenant_quotas s resources t) p.1 0 < p.2)).map
          Prod.fst).isEmpty = true := by
        rw [List.isEmpty_iff]
        exact List.ne_nil_of_mem hfm
      rw [if_neg hne]
    · intro _ hall hok
      have hud : values.filter (fun p => decide (p.2 < 0)) = [] := by
        rw [List.filter_eq_nil_iff]
        intro p hp
        have h0 := of_decide_eq_true (List.all_eq_true.mp hall p hp)
        simp [not_lt.mpr h0]
      simp only [limit_check]
      rw [hud, if_pos (show (List.map Prod.fst ([] : List (String × Int))).isEmpty = true from rfl), _get_quotas_eq]
      have hov : values.filter (fun p =>
          0 ≤ dictGetD (get_tenant_quotas s resources t) p.1 0 &&
            dictGetD (get_tenant_quotas s resources t) p.1 0 < p.2) = [] := by
        rw [List.filter_eq_nil_iff]
        intro p hp
        have hnc := List.all_eq_true.mp hok p hp
        simp at hnc
        simp
        intro h0
        rcases hnc with hneg | hle
        · exact absurd h0 (not_le.mpr hneg)
        · exact hle
      rw [hov, if_pos (show (List.map Prod.fst ([] : List (String × Int))).isEmpty = true from rfl)]
  · intro s t resources R
    rfl

/-- Witness for C5: value 100 against effective limit 50 fails with
OverQuota naming "R". -/
theorem C5_limit_check_cases_witness :
    ((∀ p ∈ [("R", (100 : Int))],
        p.1 ∈ (get_tenant_quotas emptyStore c5res "t").map Prod.fst) ∧
      List.all [("R", (100 : Int))] (fun p => decide (0 ≤ p.2)) = true ∧
      List.any [("R", (100 : Int))] (fun p =>
          0 ≤ dictGetD (get_tenant_quotas emptyStore c5res "t") p.1 0 &&
            dictGetD (get_tenant_quotas emptyStore c5res "t") p.1 0 < p.2) = true) ∧
    limit_check emptyStore "t" c5res [("R", 100)]
      = .overQuota ((([("R", (100 : Int))].filter (fun p =>
          0 ≤ dictGetD (get_tenant_quotas emptyStore c5res "t") p.1 0 &&
            dictGetD (get_tenant_quotas emptyStore c5res "t") p.1 0 < p.2)).map
          Prod.fst).insertionSort (fun a b => a ≤ b)) :=
  ⟨⟨by decide, by decide, by decide⟩,
   (C5_limit_check_cases.1 emptyStore "t" c5res [("R", 100)]).2.1
     (by decide) (by decide) (by decide)⟩

/-- C9: `delete_tenant_quota` succeeds exactly when the tenant has
override rows, in which case it removes precisely those rows (reservations
untouched); it fails with TenantQuotaNotFound exactly when the tenant has
none, in which case no row was there to delete and no store is produced. -/
theorem C9_delete_tenant_quota :
    ∀ (s : Store) (t : String),
      (delete_tenant_quota s t = .tenantQuotaNotFound t ↔
        s.quotas.filter (fun row => row.tenant_id == t) = []) ∧
      ((∃ s2, delete_tenant_quota s t = .ok s2) ↔
        s.quotas.filter (fun row => row.tenant_id == t) ≠ []) ∧
      (∀ s2, delete_tenant_quota s t = .ok s2 →
        s2.quotas = s.quotas.filter (fun row => !(row.tenant_id == t)) ∧
        s2.reservations = s.reservations ∧
        s2.nextId = s.nextId) := by
  intro s t
  by_cases hz : (s.quotas.filter (fun row => row.tenant_id == t)).length = 0
  · have hnil : s.quotas.filter (fun row => row.tenant_id == t) = [] :=
      List.eq_nil_of_length_eq_zero hz
    have hres : delete_tenant_quota s t = .tenantQuotaNotFound t := by
      unfold delete_tenant_quota
      rw [if_pos hz]
    refine ⟨⟨fun _ => hnil, fun _ => hres⟩, ?_, ?_⟩
    · constructor
      · rintro ⟨s2, hs2⟩
        rw [hres] at hs2
        exact absurd hs2 (by simp)
      · intro hcon
        exact absurd hnil hcon
    · intro s2 hs2
      rw [hres] at hs2
      exact absurd hs2 (by simp)
  · have hres : delete_tenant_quota s t
        = .ok { s with quotas := s.quotas.filter (fun row => !(row.tenant_id == t)) } := by
      unfold delete_tenant_quota
      rw [if_neg hz]
    have hnnil : s.quotas.filter (fun row => row.tenant_id == t) ≠ [] := by
      intro hcon
      exact hz (by rw [hcon]; rfl)
    refine ⟨?_, ?_, ?_⟩
    · constructor
      · intro hcon
        rw [hres] at hcon
        exact absurd hcon (by simp)
      · intro hcon
        exact absurd hcon hnnil
    · exact ⟨fun _ => hnnil, fun _ => ⟨_, hres⟩⟩
    · intro s2 hs2
      rw [hres] at hs2
      have : ({ s with quotas := s.quotas.filter (fun row => !(row.tenant_id == t)) }
          : Store) = s2 := by
        injection hs2
      rw [← this]
      exact ⟨rfl, rfl, rfl⟩

/-- Witness for C9: deleting the single override row of tenant "t1"
succeeds and leaves exactly the other tenant's row. -/
theorem C9_delete_tenant_quota_witness :
    delete_tenant_quota ⟨[⟨"t1", "R", 7⟩, ⟨"t2", "R", 9⟩], [], 0⟩ "t1"
        = .ok ⟨[⟨"t2", "R", 9⟩], [], 0⟩ ∧
    (⟨[⟨"t2", "R", 9⟩], [], 0⟩ : Store).quotas
        = (⟨[⟨"t1", "R", 7⟩, ⟨"t2", "R", 9⟩], [], 0⟩ : Store).quotas.filter
            (fun row => !(row.tenant_id == "t1")) :=
  ⟨by decide,
   ((C9_delete_tenant_quota ⟨[⟨"t1", "R", 7⟩, ⟨"t2", "R", 9⟩], [], 0⟩ "t1").2.2
      ⟨[⟨"t2", "R", 9⟩], [], 0⟩ (by decide)).1⟩

/-- C10 (implicit): the mapping `get_tenant_quotas` returns contains a key
for every stored override row of the tenant, including rows whose resource
kind is absent from the supplied registry, so the key set can strictly
exceed the registry's keys.  Concretely, with only "ports"/"nets"
registered, an override row for "exotic" still surfaces in the result. -/
theorem C10_override_keys_surface :
    (∀ (s : Store) (resources : List (String × Resource)) (t : String),
      ∀ row ∈ s.quotas, row.tenant_id = t →
        row.resource ∈ (get_tenant_quotas s resources t).map Prod.fst) ∧
    "exotic" ∈ (get_tenant_quotas ⟨[⟨"t1", "exotic", 3⟩], [], 0⟩
        [("ports", ⟨5, fun _ _ => 0⟩), ("nets", ⟨7, fun _ _ => 0⟩)] "t1").map Prod.fst ∧
    "exotic" ∉ ([("ports", (5 : Int)), ("nets", 7)]).map Prod.fst := by
  refine ⟨?_, by decide, by decide⟩
  intro s resources t row hrow hrt
  unfold get_tenant_quotas
  refine mem_keys_overlay_of_mem_rows ?_
  refine List.mem_filter.mpr ⟨hrow, ?_⟩
  exact beq_iff_eq.mpr hrt

/-- Witness for C10: the override row for the unregistered kind "exotic"
surfaces among the returned keys. -/
theorem C10_override_keys_surface_witness :
    (⟨"t1", "exotic", 3⟩ : QuotaRow) ∈ (⟨[⟨"t1", "exotic", 3⟩], [], 0⟩ : Store).quotas ∧
    "exotic" ∈ (get_tenant_quotas ⟨[⟨"t1", "exotic", 3⟩], [], 0⟩
        [("ports", ⟨5, fun _ _ => 0⟩), ("nets", ⟨7, fun _ _ => 0⟩)] "t1").map Prod.fst :=
  ⟨by decide,
   C10_override_keys_surface.1 ⟨[⟨"t1", "exotic", 3⟩], [], 0⟩
     [("ports", ⟨5, fun _ _ => 0⟩), ("nets", ⟨7, fun _ _ => 0⟩)] "t1"
     ⟨"t1", "exotic", 3⟩ (by decide) (by decide)⟩

/-! ### Lemmas for the limit-administration round trip -/

lemma dictGet_init_defaults {resources : List (String × Resource)} {R : String}
    {res : Resource} (hn : (resources.map Prod.fst).Nodup)
    (hm : (R, res) ∈ resources) :
    dictGet (resources.map (fun kr => (kr.1, kr.2.default))) R
      = some res.default := by
  induction resources with
  | nil => simp at hm
  | cons a tl ih =>
    unfold dictGet
    rw [List.map_cons]
    by_cases ha : a.1 = R
    · simp only [List.find?_cons, beq_iff_eq.mpr ha]
      rcases List.mem_cons.mp hm with heq | htl
      · rw [← heq]
        rfl
      · have hkey : R ∈ tl.map Prod.fst := List.mem_map.mpr ⟨(R, res), htl, rfl⟩
        rw [List.map_cons, List.nodup_cons] at hn
        exact absurd (ha ▸ hkey) hn.1
    · simp only [List.find?_cons, beq_eq_false_iff_ne.mpr ha]
      have htl : (R, res) ∈ tl := by
        rcases List.mem_cons.mp hm with heq | htl
        · exact absurd (by rw [← heq]) ha
        · exact htl
      have hn' : (tl.map Prod.fst).Nodup := by
        rw [List.map_cons, List.nodup_cons] at hn
        exact hn.2
      exact ih hn' htl

lemma filter_replaceFirst (l : List QuotaRow) (t R : String) (L : Int) :
    (replaceFirst l t R L).filter (fun row => row.tenant_id == t)
      = replaceFirst (l.filter (fun row => row.tenant_id == t)) t R L := by
  induction l with
  | nil => rfl
  | cons h tl ih =>
    by_cases hm : (h.tenant_id == t && h.resource == R) = true
    · have ht : (h.tenant_id == t) = true := ((Bool.and_eq_true _ _).mp hm).1
      simp only [replaceFirst]
      rw [if_pos hm]
      simp only [List.filter_cons, ht, if_true]
      simp only [replaceFirst]
      rw [if_pos hm]
    · simp only [replaceFirst]
      rw [if_neg hm]
      by_cases ht : (h.tenant_id == t) = true
      · simp only [List.filter_cons, ht, if_true]
        simp only [replaceFirst]
        rw [if_neg hm, ih]
      · have ht' : (h.tenant_id == t) = false := by
          simp at ht
          exact beq_eq_false_iff_ne.mpr ht
        simp only [List.filter_cons, ht', Bool.false_eq_true, if_false]
        exact ih

lemma any_match_filter {l : List QuotaRow} {t R : String}
    (h : l.any (fun row => row.tenant_id == t && row.resource == R) = true) :
    (l.filter (fun row => row.tenant_id == t)).any
      (fun row => row.resource == R) = true := by
  rcases List.any_eq_true.mp h with ⟨row, hrow, hc⟩
  rcases (Bool.and_eq_true _ _).mp hc with ⟨h1, h2⟩
  exact List.any_eq_true.mpr ⟨row, List.mem_filter.mpr ⟨hrow, h1⟩, h2⟩

lemma replaceFirst_reverse_find {tr : List QuotaRow} {t R : String} {L : Int}
    (hn : (tr.map (fun row => row.resource)).Nodup)
    (hany : tr.any (fun row => row.resource == R) = true)
    (hall : ∀ row ∈ tr, row.tenant_id = t) :
    (replaceFirst tr t R L).reverse.find? (fun row => row.resource == R)
      = some ⟨t, R, L⟩ := by
  induction tr with
  | nil => simp at hany
  | cons h tl ih =>
    have hht : h.tenant_id = t := hall h (List.mem_cons_self h tl)
    by_cases hr : h.resource = R
    · have hm : (h.tenant_id == t && h.resource == R) = true := by
        simp [hht, hr]
      simp only [replaceFirst]
      rw [if_pos hm, List.reverse_cons, List.find?_append]
      have hnone : tl.reverse.find? (fun row => row.resource == R) = none := by
        rw [List.find?_eq_none]
        intro row hrow hc
        have hmem : row ∈ tl := List.mem_reverse.mp hrow
        have hkey : R ∈ tl.map (fun row => row.resource) :=
          List.mem_map.mpr ⟨row, hmem, beq_iff_eq.mp hc⟩
        rw [List.map_cons, List.nodup_cons] at hn
        exact hn.1 (hr ▸ hkey)
      rw [hnone, Option.none_or]
      have hupd : ({ h with limit := L } : QuotaRow) = ⟨t, R, L⟩ := by
        show (⟨h.tenant_id, h.resource, L⟩ : QuotaRow) = ⟨t, R, L⟩
        rw [hht, hr]
      rw [hupd]
      simp [List.find?_cons]
    · have hm : (h.tenant_id == t && h.resource == R) = false := by
        simp [hr]
      simp only [replaceFirst]
      rw [if_neg (by simp [hm]), List.reverse_cons, List.find?_append]
      have hany' : tl.any (fun row => row.resource == R) = true := by
        rcases List.any_eq_true.mp hany with ⟨row, hrow, hc⟩
        rcases List.mem_cons.mp hrow with heq | hmem
        · exact absurd (beq_iff_eq.mp hc) (heq ▸ hr)
        · exact List.any_eq_true.mpr ⟨row, hmem, hc⟩
      have hn' : (tl.map (fun row => row.resource)).Nodup := by
        rw [List.map_cons, List.nodup_cons] at hn
        exact hn.2
      have hall' : ∀ row ∈ tl, row.tenant_id = t := by
        intro row hrow
        exact hall row (List.mem_cons_of_mem h hrow)
      rw [ih hn' hany' hall']
      rfl

/-- Scenario registry of C8: "ports" (default 5) and "nets" (default 7). -/
def c8res : List (String × Resource) :=
  [("ports", ⟨5, fun _ _ => 0⟩), ("nets", ⟨7, fun _ _ => 0⟩)]

/-- C8: (i) with no stored override for a registered kind, the tenant's
quota is the registered default; (ii) after `update_quota_limit t R L`
(assuming the DB uniqueness of the tenant's per-kind rows), the tenant's
quota for R reads L; (iii) after a successful `delete_tenant_quota`, the
tenant's quotas are exactly the registered defaults again. -/
theorem C8_quota_admin_roundtrip :
    (∀ (s : Store) (resources : List (String × Resource)) (t R : String)
        (res : Resource),
      (resources.map Prod.fst).Nodup → (R, res) ∈ resources →
      (∀ row ∈ s.quotas, row.tenant_id = t → row.resource ≠ R) →
      dictGet (get_tenant_quotas s resources t) R = some res.default) ∧
    (∀ (s : Store) (resources : List (String × Resource)) (t R : String) (L : Int),
      ((s.quotas.filter (fun row => row.tenant_id == t)).map
        (fun row => row.resource)).Nodup →
      dictGet (get_tenant_quotas (update_quota_limit s t R L) resources t) R
        = some L) ∧
    (∀ (s : Store) (resources : List (String × Resource)) (t : String) (s2 : Store),
      delete_tenant_quota s t = .ok s2 →
      get_tenant_quotas s2 resources t
        = resources.map (fun kr => (kr.1, kr.2.default))) := by
  refine ⟨?_, ?_, ?_⟩
  · intro s resources t R res hn hm hno
    unfold get_tenant_quotas
    rw [dictGet_overlay]
    have hfind : (s.quotas.filter (fun row => row.tenant_id == t)).reverse.find?
        (fun row => row.resource == R) = none := by
      rw [List.find?_eq_none]
      intro row hrow hcon
      have hrow2 : row ∈ s.quotas.filter (fun row => row.tenant_id == t) :=
        List.mem_reverse.mp hrow
      rcases List.mem_filter.mp hrow2 with ⟨hmem, htb⟩
      exact (hno row hmem (beq_iff_eq.mp htb)) (beq_iff_eq.mp hcon)
    rw [hfind]
    exact dictGet_init_defaults hn hm
  · intro s resources t R L hn
    unfold update_quota_limit
    by_cases hany : s.quotas.any
        (fun row => row.tenant_id == t && row.resource == R) = true
    · rw [if_pos hany]
      unfold get_tenant_quotas
      rw [dictGet_overlay]
      have hq : ({ s with quotas := replaceFirst s.quotas t R L } : Store).quotas
          = replaceFirst s.quotas t R L := rfl
      rw [hq, filter_replaceFirst]
      have hall : ∀ row ∈ s.quotas.filter (fun row => row.tenant_id == t),
          row.tenant_id = t := by
        intro row hrow
        exact beq_iff_eq.mp (List.mem_filter.mp hrow).2
      rw [replaceFirst_reverse_find hn (any_match_filter hany) hall]
    · rw [if_neg hany]
      unfold get_tenant_quotas
      rw [dictGet_overlay]
      have hq : ({ s with quotas := s.quotas ++ [⟨t, R, L⟩] } : Store).quotas
          = s.quotas ++ [⟨t, R, L⟩] := rfl
      rw [hq, List.filter_append]
      have hnew : ([(⟨t, R, L⟩ : QuotaRow)]).filter
          (fun row => row.tenant_id == t) = [⟨t, R, L⟩] := by
        simp [List.filter_cons]
      rw [hnew, List.reverse_append]
      simp [List.find?_cons]
  · intro s resources t s2 hdel
    unfold delete_tenant_quota at hdel
    by_cases hz : (s.quotas.filter (fun row => row.tenant_id == t)).length = 0
    · rw [if_pos hz] at hdel
      exact absurd hdel (by simp)
    · rw [if_neg hz] at hdel
      have hs2 : Store.mk (s.quotas.filter (fun row => !(row.tenant_id == t)))
          s.reservations s.nextId = s2 := by
        injection hdel
      unfold get_tenant_quotas
      rw [← hs2]
      have hnil : (s.quotas.filter (fun row => !(row.tenant_id == t))).filter
          (fun row => row.tenant_id == t) = [] := by
        rw [List.filter_filter, List.filter_eq_nil_iff]
        intro row hrow
        simp
      rw [hnil]
      rfl

/-- Witness for C8: updating "ports" to 9 for tenant "t1" on the empty
store makes the tenant's quota for "ports" read 9. -/
theorem C8_quota_admin_roundtrip_witness :
    ((emptyStore.quotas.filter (fun row => row.tenant_id == "t1")).map
      (fun row => row.resource)).Nodup ∧
    dictGet (get_tenant_quotas (update_quota_limit emptyStore "t1" "ports" 9)
      c8res "t1") "ports" = some 9 :=
  ⟨by decide,
   C8_quota_admin_roundtrip.2.1 emptyStore c8res "t1" "ports" 9 (by decide)⟩

/-! ### Retry wrapper around make_reservation (C6) -/

/-- The error taxonomy visible around `make_reservation` and the quota
admin operations: the three quota-semantic errors raised by the driver,
and the store's transient deadlock/contention signal. -/
inductive DriverError where
  | overQuota (overs : List String)
  | invalidQuotaValue (unders : List String)
  | tenantQuotaNotFound (tenant_id : String)
  | dbDeadlock
deriving DecidableEq, Repr

/-- Modelled from the spec: `db_api.is_deadlock`, the exception checker
handed to the retry decorator, recognizes only the store's transient
deadlock signal. -/
def is_deadlock : DriverError → Bool
  | .dbDeadlock => true
  | _ => false

/-- Modelled from the spec: `db_api.MAX_RETRIES`, the decorator's bounded
attempt budget. -/
def MAX_RETRIES : Nat := 10

/-- Modelled from the spec: the retry loop of oslo's `wrap_db_retry`: run
the current attempt; retry the next attempt only on an error accepted by
the checker and only while fuel remains, otherwise surface the error
verbatim. -/
def retryLoop (checker : DriverError → Bool)
    (op : Nat → Except DriverError α) : Nat → Nat → Except DriverError α
  | attempt, 0 => op attempt
  | attempt, fuel + 1 =>
    match op attempt with
    | .ok a => .ok a
    | .error e =>
      if checker e then retryLoop checker op (attempt + 1) fuel else .error e

/-- Modelled from the spec: the decorator
`oslo_db_api.wrap_db_retry(max_retries=db_api.MAX_RETRIES,
retry_interval=0.1, inc_retry_interval=True, retry_on_request=True,
exception_checker=db_api.is_deadlock)` wrapping `make_reservation`. -/
def wrap_db_retry (max_retries : Nat) (checker : DriverError → Bool)
    (op : Nat → Except DriverError α) : Except DriverError α :=
  retryLoop checker op 0 max_retries

/-- Modelled from the spec: the backoff interval (in seconds) before the
n-th retry: base 0.1, doubling each retry (`inc_retry_interval=True`). -/
def retry_interval (n : Nat) : ℚ := (1 / 10) * 2 ^ n

lemma retryLoop_not_retryable {op : Nat → Except DriverError α}
    {checker : DriverError → Bool} {e : DriverError} (fuel attempt : Nat)
    (h : op attempt = .error e) (hc : checker e = false) :
    retryLoop checker op attempt fuel = .error e := by
  cases fuel with
  | zero => simpa [retryLoop] using h
  | succ m => simp [retryLoop, h, hc]

lemma retryLoop_all_deadlock {op : Nat → Except DriverError α}
    (h : ∀ n, op n = .error .dbDeadlock) :
    ∀ fuel attempt, retryLoop is_deadlock op attempt fuel
      = .error .dbDeadlock := by
  intro fuel
  induction fuel with
  | zero =>
    intro attempt
    simpa [retryLoop] using h attempt
  | succ m ih =>
    intro attempt
    simp [retryLoop, h attempt, is_deadlock, ih]

lemma retryLoop_congr {op op2 : Nat → Except DriverError α}
    (checker : DriverError → Bool) :
    ∀ fuel attempt, (∀ n, attempt ≤ n → n ≤ attempt + fuel → op n = op2 n) →
    retryLoop checker op attempt fuel = retryLoop checker op2 attempt fuel := by
  intro fuel
  induction fuel with
  | zero =>
    intro attempt hag
    simp [retryLoop, hag attempt le_rfl (by omega)]
  | succ m ih =>
    intro attempt hag
    simp only [retryLoop]
    rw [hag attempt le_rfl (by omega)]
    cases op2 attempt with
    | ok a => rfl
    | error e =>
      by_cases hc : checker e = true
      · simp only [hc, if_true]
        exact ih (attempt + 1) (fun n h1 h2 => hag n (by omega) (by omega))
      · simp only [hc]
        rfl

/-- C6: the retry wrapper around `make_reservation` never retries a
non-deadlock (quota-semantic) failure and surfaces it verbatim from the
first attempt; OverQuota, InvalidQuotaValue and TenantQuotaNotFound are
never classified retryable while the deadlock signal is; an operation that
keeps deadlocking is retried and surfaced only after the bounded attempt
budget (the wrapper's outcome depends on no attempt beyond MAX_RETRIES);
and the backoff interval strictly increases from its 0.1 base. -/
theorem C6_retry_policy :
    (∀ (α : Type) (op : Nat → Except DriverError α) (e : DriverError),
      op 0 = .error e → is_deadlock e = false →
      wrap_db_retry MAX_RETRIES is_deadlock op = .error e) ∧
    (∀ l l2 tid, is_deadlock (.overQuota l) = false ∧
      is_deadlock (.invalidQuotaValue l2) = false ∧
      is_deadlock (.tenantQuotaNotFound tid) = false) ∧
    is_deadlock .dbDeadlock = true ∧
    (∀ (α : Type) (op : Nat → Except DriverError α),
      (∀ n, op n = .error .dbDeadlock) →
      wrap_db_retry MAX_RETRIES is_deadlock op = .error .dbDeadlock) ∧
    (∀ (α : Type) (op op2 : Nat → Except DriverError α),
      (∀ n, n ≤ MAX_RETRIES → op n = op2 n) →
      wrap_db_retry MAX_RETRIES is_deadlock op
        = wrap_db_retry MAX_RETRIES is_deadlock op2) ∧
    (∀ n, retry_interval n < retry_interval (n + 1)) := by
  refine ⟨?_, ?_, rfl, ?_, ?_, ?_⟩
  · intro α op e h0 hnd
    exact retryLoop_not_retryable MAX_RETRIES 0 h0 hnd
  · intro l l2 tid
    exact ⟨rfl, rfl, rfl⟩
  · intro α op h
    exact retryLoop_all_deadlock h MAX_RETRIES 0
  · intro α op op2 hag
    exact retryLoop_congr is_deadlock MAX_RETRIES 0
      (fun n h1 h2 => hag n (by simpa using h2))
  · intro n
    unfold retry_interval
    have h2 : (2 : ℚ) ^ n < 2 ^ (n + 1) := by
      rw [pow_succ]
      have hp := pow_pos (by norm_num : (0 : ℚ) < 2) n
      nlinarith
    exact mul_lt_mul_of_pos_left h2 (by norm_num)

/-- Witness for C6: a first-attempt OverQuota failure is surfaced verbatim
without any retry. -/
theorem C6_retry_policy_witness :
    ((fun _ => Except.error (DriverError.overQuota ["R"])
        : Nat → Except DriverError Nat) 0
      = .error (.overQuota ["R"]) ∧ is_deadlock (.overQuota ["R"]) = false) ∧
    wrap_db_retry MAX_RETRIES is_deadlock
        (fun _ => Except.error (DriverError.overQuota ["R"])
          : Nat → Except DriverError Nat)
      = .error (.overQuota ["R"]) :=
  ⟨⟨rfl, rfl⟩,
   C6_retry_policy.1 Nat (fun _ => Except.error (DriverError.overQuota ["R"]))
     (.overQuota ["R"]) rfl rfl⟩
